import Mathlib

/-!
Shallow embedding of the GCP machine-pool actuator
(`pkg/controller/remotemachineset/gcpactuator.go`): the lease-based
pool-name allocator (`obtainLease`, `findAvailableLeaseChars`), the
lease-requirement policy (`requireLeases`), the cloud topology queries
(`getZones`, `getImageID`) and the enclosing `GenerateMachineSets`.

External effects (the record store, the GCP client, the random source and
the third-party semver library) are passed in as explicit parameters; the
Go convention of a `(value, error)` pair with a non-nil error meaning
failure is rendered as `Except`/`Option String`, and each function's
observable side effects (creation calls, expectation-cache updates,
status writes) are returned in an explicit result record.
-/

namespace Hive

/-- A machine-pool status condition; only the fields the change check
compares (type, status, reason, message) are modelled. Status strings are
the k8s values "True"/"False"/"Unknown". -/
structure PoolCondition where
  condType : String
  status : String
  reason : String
  message : String
deriving DecidableEq

/-- The two condition-update policies used by `obtainLease`. -/
inductive UpdateConditionCheck where
  | ifReasonOrMessageChange
  | never
deriving DecidableEq

/-- Modelled from the spec: `controllerutils.SetMachinePoolConditionWithChangeCheck`
lives in `pkg/controller/utils`, which is not under `src/`. Per spec §4.4 and §9
the write happens only if the condition's value/reason/message actually changed:
an existing condition of the same type is updated when its status differs, or
(under `ifReasonOrMessageChange`) when its reason or message differs; a missing
condition is added only when being set to "True". Returns the new condition list
and whether anything changed (i.e. whether a status write is needed). -/
def setMachinePoolConditionWithChangeCheck (conds : List PoolCondition)
    (condType status reason message : String) (check : UpdateConditionCheck) :
    List PoolCondition × Bool :=
  match conds.find? (fun c => c.condType == condType) with
  | some c =>
    let needsUpdate : Bool :=
      (c.status != status) ||
        (check == .ifReasonOrMessageChange && ((c.reason != reason) || (c.message != message)))
    if needsUpdate then
      (conds.map (fun d =>
        if d.condType == condType then
          { d with status := status, reason := reason, message := message }
        else d), true)
    else (conds, false)
  | none =>
    if status == "True" then
      (conds ++ [{ condType := condType, status := status, reason := reason, message := message }],
        true)
    else (conds, false)

/-- The in-memory expectation cache, keyed by "namespace/name" identity strings.
Modelled from the spec: `controllerutils.ExpectationsInterface` is not under
`src/`; spec §4.3 gives its contract (`ExpectCreations` overwrites the count for
a key, `DeleteExpectations` clears a key). -/
def ExpectState := List (String × Nat)
deriving DecidableEq

/-- Modelled from the spec: records that `n` creations are expected for `key`,
overwriting any prior entry for that key (spec §4.3). -/
def expectCreations (s : ExpectState) (key : String) (n : Nat) : ExpectState :=
  (key, n) :: (List.filter (fun p => p.1 != key) s)

/-- Modelled from the spec: clears any expectation recorded for `key` (spec §4.3). -/
def deleteExpectations (s : ExpectState) (key : String) : ExpectState :=
  List.filter (fun p => p.1 != key) s

/-- Look up the expected-creation count recorded for `key`, if any. -/
def expectedCreations? (s : ExpectState) (key : String) : Option Nat :=
  (List.find? (fun p => p.1 == key) s).map (·.2)

/-- A `MachinePoolNameLease` resource: its object name and the two labels the
actuator reads/writes, plus the namespace it is created in. A missing label is
the empty string (Go map lookup on an absent key). Owner references are set on
creation but never read back, so they are not modelled. -/
structure Lease where
  name : String
  namespaceName : String
  machinePoolNameLabel : String
  clusterDeploymentNameLabel : String
deriving DecidableEq

/-- `pool.Spec.Platform.GCP`: the fields `GenerateMachineSets` reads. -/
structure GCPMachinePoolPlatform where
  zones : List String
  instanceType : String
deriving DecidableEq

/-- A `MachinePool`: object name, namespace, uid, `Spec.Name` (the logical pool
name), the optional GCP platform section, and `Status.Conditions`. -/
structure MachinePool where
  name : String
  namespaceName : String
  uid : String
  specName : String
  platformGCP : Option GCPMachinePoolPlatform
  conditions : List PoolCondition
deriving DecidableEq

/-- A `ClusterDeployment`: object name, `Spec.ClusterMetadata` (carrying the
infra id when present) and `Spec.Platform.GCP` (carrying the region when
present). -/
structure ClusterDeployment where
  name : String
  clusterMetadata : Option String
  platformGCPRegion : Option String
deriving DecidableEq

/-- `cd.Spec.ClusterMetadata.InfraID`; callers validate presence first, so the
empty-string default is never observed on validated paths. -/
def ClusterDeployment.infraID (cd : ClusterDeployment) : String :=
  cd.clusterMetadata.getD ""

/-- The lease-character alphabet from the source: lowercase alphanumerics with
`m` omitted (used by the installer for masters) and `w` omitted (implicitly used
by the installer for the original worker pool). -/
def validLeaseChars : String := "abcdefghijklnopqrstuvxyz0123456789"

/-- `findAvailableLeaseChars`: every character of `validLeaseChars` not already
claimed (as the trailing character of the lease name) by a lease labelled with
this cluster deployment's name. The Go code builds a rune set with
`stringToRuneSet` and deletes claimed runes, then collects the keys in
(nondeterministic) map-iteration order; we produce the same set in the canonical
alphabet order — only set membership is observable, since the caller picks an
externally-random element. A lease with an empty name would make the Go code
panic on `lease.Name[len-1]`; such leases are outside the model (`getLast?`
skips them) and excluded by hypothesis in the theorems below. The Go signature
also returns an error which is always nil, so it is dropped here. -/
def findAvailableLeaseChars (cd : ClusterDeployment) (leases : List Lease) : List Char :=
  let claimedChars := leases.filterMap (fun lease =>
    if lease.clusterDeploymentNameLabel == cd.name then lease.name.toList.getLast? else none)
  validLeaseChars.toList.filter (fun c => !(claimedChars.contains c))

/-- The returned values of `obtainLease` together with its observable effects:
the creation calls issued against the store, the final expectation-cache state,
the number of pool-status update calls issued, and the pool's (in-memory)
conditions after the call. -/
structure ObtainLeaseResult where
  leaseChar : String
  proceed : Bool
  err : Option String
  createCalls : List Lease
  expectations : ExpectState
  statusWrites : Nat
  conditions : List PoolCondition
deriving DecidableEq

/-- The shared creation tail of `obtainLease` (source lines 328-358): build the
lease named `<infraID>-<char>` labelled with the pool and cluster-deployment
names, register an expectation of one creation under the pool's
"namespace/name" key, then attempt the create. On failure the just-registered
expectation is deleted and the error returned; on success the selected
character is returned with `proceed = false`. `createErr` is the store's
response to the creation call (`none` = success). -/
def obtainLeaseCreate (pool : MachinePool) (cd : ClusterDeployment)
    (expectations : ExpectState) (createErr : Option String) (leaseRune : Char)
    (statusWrites : Nat) (conditions : List PoolCondition) : ObtainLeaseResult :=
  let leaseName := cd.infraID ++ "-" ++ String.singleton leaseRune
  let l : Lease :=
    { name := leaseName
      namespaceName := pool.namespaceName
      machinePoolNameLabel := pool.name
      clusterDeploymentNameLabel := cd.name }
  let expectKey := pool.namespaceName ++ "/" ++ pool.name
  let exps := expectCreations expectations expectKey 1
  match createErr with
  | some e =>
    { leaseChar := "", proceed := false, err := some e, createCalls := [l],
      expectations := deleteExpectations exps expectKey,
      statusWrites := statusWrites, conditions := conditions }
  | none =>
    { leaseChar := String.singleton leaseRune, proceed := false, err := none,
      createCalls := [l], expectations := exps,
      statusWrites := statusWrites, conditions := conditions }

/-- `obtainLease` (source lines 252-359). External inputs: `leases` is the
visible lease list, `expectations` the current expectation cache, `rand` the
random draw (the source's `rand.Intn(len(avail))` is modelled as
`rand % len avail`, covering every possible draw), `createErr` the store's
response to a creation call and `updateErr` the store's response to a status
update call (at most one of each can be issued per invocation).

A pre-existing lease whose name is empty would make the Go code panic on
`l.Name[len(l.Name)-1:]`; the model returns the format-mismatch error there,
and the theorems below restrict to non-empty lease names. -/
def obtainLease (pool : MachinePool) (cd : ClusterDeployment) (leases : List Lease)
    (expectations : ExpectState) (rand : Nat) (createErr : Option String)
    (updateErr : Option String) : ObtainLeaseResult :=
  match leases.find? (fun l => l.machinePoolNameLabel == pool.name) with
  | some l =>
    -- the pool already has a lease; validate its name format
    let leaseChar := l.name.takeRight 1
    let expectedLeaseName := cd.infraID ++ "-" ++ leaseChar
    if expectedLeaseName != l.name then
      { leaseChar := "", proceed := false,
        err := some ("lease " ++ l.name ++ " did not match expected lease name format ("
          ++ expectedLeaseName ++ "[CHAR])"),
        createCalls := [], expectations := expectations, statusWrites := 0,
        conditions := pool.conditions }
    else
      { leaseChar := leaseChar, proceed := true, err := none, createCalls := [],
        expectations := expectations, statusWrites := 0, conditions := pool.conditions }
  | none =>
    if pool.specName == "worker" then
      -- preserve the installer's implicit "w" for the original worker pool
      obtainLeaseCreate pool cd expectations createErr 'w' 0 pool.conditions
    else
      let availLeaseChars := findAvailableLeaseChars cd leases
      if availLeaseChars.isEmpty then
        -- no character free: set the exhaustion condition (write only on change)
        let res := setMachinePoolConditionWithChangeCheck pool.conditions
          "NoMachinePoolNameLeasesAvailable" "True" "OutOfMachinePoolNames"
          "All machine pool names are in use" .ifReasonOrMessageChange
        if res.2 then
          match updateErr with
          | some e =>
            { leaseChar := "", proceed := false, err := some e, createCalls := [],
              expectations := expectations, statusWrites := 1, conditions := res.1 }
          | none =>
            { leaseChar := "", proceed := false, err := none, createCalls := [],
              expectations := expectations, statusWrites := 1, conditions := res.1 }
        else
          { leaseChar := "", proceed := false, err := none, createCalls := [],
            expectations := expectations, statusWrites := 0, conditions := pool.conditions }
      else
        -- characters available: clear the exhaustion condition if it was set
        let res := setMachinePoolConditionWithChangeCheck pool.conditions
          "NoMachinePoolNameLeasesAvailable" "False" "MachinePoolNamesAvailable"
          "Machine pool names available" .never
        let step : Option String × Nat × List PoolCondition :=
          if res.2 then
            match updateErr with
            | some e => (some e, 1, res.1)
            | none => (none, 1, res.1)
          else (none, 0, pool.conditions)
        match step with
        | (some e, w, conds) =>
          { leaseChar := "", proceed := false, err := some e, createCalls := [],
            expectations := expectations, statusWrites := w, conditions := conds }
        | (none, w, conds) =>
          let leaseRune := availLeaseChars.getD (rand % availLeaseChars.length) 'a'
          obtainLeaseCreate pool cd expectations createErr leaseRune w conds

/-- A single page of a paginated compute-zone listing: the zone names on the
page and the opaque next-page token ("" = last page). -/
structure ComputeZoneList where
  items : List String
  nextPageToken : String
deriving DecidableEq

/-- An ASCII single quote, kept out of string literals. -/
def singleQuote : String := String.singleton (Char.ofNat 39)

/-- The zone filter built by `getZones`: regions matching `.*<region>.*` with
status UP (source line 197). -/
def zoneFilterFor (region : String) : String :=
  "(region eq " ++ singleQuote ++ ".*" ++ region ++ ".*" ++ singleQuote ++ ") (status eq UP)"

/-- The paging loop of `getZones`: call the client with the current page token,
append the returned items, and continue with the returned next-page token until
it is empty. A client error is returned as-is (the Go code returns the error
alongside the partial slice, which the non-nil error marks as unusable). `fuel`
bounds the unbounded Go `for` loop for totality; `none` means the backend never
produced an empty token within `fuel` calls (the Go code would still be
looping). -/
def getZonesAux (fetch : String → Except String ComputeZoneList) :
    Nat → String → List String → Option (Except String (List String))
  | 0, _, _ => none
  | Nat.succ fuel, pageToken, zones =>
    match fetch pageToken with
    | .error e => some (.error e)
    | .ok zoneList =>
      let zones2 := zones ++ zoneList.items
      if zoneList.nextPageToken == "" then some (.ok zones2)
      else getZonesAux fetch fuel zoneList.nextPageToken zones2

/-- `getZones` (source lines 193-221): accumulate the zone names of every page
of the filtered listing, starting from the empty page token.
`listComputeZones` is the external GCP client call, taking the filter and the
page token. -/
def getZones (listComputeZones : String → String → Except String ComputeZoneList)
    (fuel : Nat) (region : String) : Option (Except String (List String)) :=
  getZonesAux (listComputeZones (zoneFilterFor region)) fuel "" []

/-- A GCP compute image; only the name is read. -/
structure GCPImage where
  name : String
deriving DecidableEq

/-- Character-list leading-segment test: `charsLeadWith p s` holds when `s`
begins with `p` (a structurally recursive rendering of a string-start match). -/
def charsLeadWith : List Char → List Char → Bool
  | [], _ => true
  | _ :: _, [] => false
  | p :: ps, c :: cs => p == c && charsLeadWith ps cs

/-- Modelled from the spec: `gcpclient.ListComputeImages` (package
`pkg/gcpclient`, not under `src/`) evaluated on the filter
`name eq "<infra>-.*"` built by `getImageID`; per spec §4.5 it returns exactly
the images "whose name starts with `<infraId>-`". `allImages` is the full image
inventory the cloud would list unfiltered. -/
def listComputeImages (allImages : List GCPImage) (infra : String) : List GCPImage :=
  allImages.filter (fun img => charsLeadWith (infra ++ "-").toList img.name.toList)

/-- `getImageID` (source lines 223-246): list images named `<infra>-.*`; exactly
one match is returned by name, zero matches and two-or-more matches are distinct
errors. `listErr` is a transport failure of the listing call itself (`none` =
the call succeeded with the filtered inventory). -/
def getImageID (cd : ClusterDeployment) (allImages : List GCPImage)
    (listErr : Option String) : Except String String :=
  let infra := cd.infraID
  match listErr with
  | some e => .error e
  | none =>
    match listComputeImages allImages infra with
    | [] => .error ("found 0 results searching for GCP image starting with name: " ++ infra)
    | [item] => .ok item.name
    | _ :: _ :: _ =>
      .error ("unexpected number of results when looking for GCP image with name starting with "
        ++ infra)

/-- A parsed semantic version, as produced by the third-party
`semver.ParseTolerant`. The comparison against the supported range is the
library's (`versionsSupportingFullNames` below is passed in abstractly). -/
structure SemVer where
  major : Nat
  minor : Nat
  patch : Nat
deriving DecidableEq

/-- A remote-cluster MachineSet; only the name is read by this code. -/
structure MachineSet where
  name : String
deriving DecidableEq

/-- The middle name token extracted by `requireLeases` from one machine-set
name: for names with at least three dash-separated parts, the second-to-last
part; shorter names contribute nothing. -/
def middleNameToken (name : String) : Option String :=
  let nameParts := name.splitOn "-"
  if nameParts.length < 3 then none
  else nameParts.get? (nameParts.length - 2)

/-- The set (as a list) of middle name tokens of the remote machine sets —
the `poolNames` map of the source. -/
def poolNamesOf (remoteMachineSets : List MachineSet) : List String :=
  remoteMachineSets.filterMap (fun ms => middleNameToken ms.name)

/-- `requireLeases` (source lines 394-424). `parsedClusterVersion` is the result
of the external `semver.ParseTolerant` (`none` = parse error, which is not
fatal) and `versionsSupportingFullNames` the external semver range check for
">=4.4.7". Leases are required when the version parses outside the supported
range, or when some machine set has middle token "w" while none has middle
token "worker" (the installer-created original worker pool under the legacy
scheme). -/
def requireLeases (parsedClusterVersion : Option SemVer)
    (versionsSupportingFullNames : SemVer → Bool)
    (remoteMachineSets : List MachineSet) : Bool :=
  let belowRange : Bool :=
    match parsedClusterVersion with
    | some v => !(versionsSupportingFullNames v)
    | none => false
  if belowRange then true
  else
    let poolNames := poolNamesOf remoteMachineSets
    poolNames.contains "w" && !(poolNames.contains "worker")

/-- The returned values of `GenerateMachineSets` plus instrumentation:
`poolNameChosen` records the pool name handed to the machine-group assembly
once control passes the lease block (`none` when the call returned before
that point), and `obtain` records the lease step's full result when the lease
path ran. -/
structure GenResult where
  machineSets : Option (List MachineSet)
  proceed : Bool
  err : Option String
  poolNameChosen : Option String
  obtain : Option ObtainLeaseResult
deriving DecidableEq

/-- The tail of `GenerateMachineSets` after the pool name is fixed (source
lines 145-190): resolve the image, resolve zones when the pool requests none
(rejecting an empty zone list), determine the worker user data secret, and call
the installer's MachineSets generator. `imageIDResult`, `zonesResult` and
`workerUserDataResult` are the outcomes of `a.getImageID`, `a.getZones` and
`workerUserData` (the latter two modelled separately); `installerMachineSets`
is the external `installgcp.MachineSets`, abstracted as a function of the pool
name, image id, zone list and user data secret. -/
def generateMachineSetsBuild (cd : ClusterDeployment) (pool : MachinePool)
    (poolName : String) (obt : Option ObtainLeaseResult)
    (imageIDResult : Except String String) (zonesResult : Except String (List String))
    (workerUserDataResult : Except String String)
    (installerMachineSets : String → String → List String → String → Except String (List MachineSet)) :
    GenResult :=
  match imageIDResult with
  | .error e =>
    { machineSets := none, proceed := false,
      err := some ("failed to find image ID for the machine sets: " ++ e),
      poolNameChosen := some poolName, obtain := obt }
  | .ok imageID =>
    let configuredZones := (pool.platformGCP.map (·.zones)).getD []
    let zonesStep : Except String (List String) :=
      if configuredZones.length == 0 then
        match zonesResult with
        | .error e =>
          .error ("compute pool not providing list of zones and failed to fetch list of zones: "
            ++ e)
        | .ok zs =>
          if zs.length == 0 then
            .error ("zero zones returned for region " ++ cd.platformGCPRegion.getD "")
          else .ok zs
      else .ok configuredZones
    match zonesStep with
    | .error e =>
      { machineSets := none, proceed := false, err := some e,
        poolNameChosen := some poolName, obtain := obt }
    | .ok zones =>
      match workerUserDataResult with
      | .error e =>
        { machineSets := none, proceed := false,
          err := some ("error determining worker user data secret: " ++ e),
          poolNameChosen := some poolName, obtain := obt }
      | .ok workerUserDataSecret =>
        match installerMachineSets poolName imageID zones workerUserDataSecret with
        | .ok sets =>
          { machineSets := some sets, proceed := true, err := none,
            poolNameChosen := some poolName, obtain := obt }
        | .error e =>
          { machineSets := none, proceed := false,
            err := some ("failed to generate machinesets: " ++ e),
            poolNameChosen := some poolName, obtain := obt }

/-- `GenerateMachineSets` (source lines 93-191): validate the cluster and pool
records, get the cluster version, list the visible leases (both external,
passed as results), decide whether to use leases (required by policy or leases
already exist), run `obtainLease` when so — propagating its error, stopping
with `(nil, false, nil)` when it says not to proceed, and otherwise renaming
the pool to the lease character — then assemble the machine sets. -/
def GenerateMachineSets (leasesRequired : Bool) (expectations : ExpectState)
    (cd : ClusterDeployment) (pool : MachinePool)
    (clusterVersionResult : Except String String)
    (listLeasesResult : Except String (List Lease))
    (rand : Nat) (createErr : Option String) (updateErr : Option String)
    (imageIDResult : Except String String) (zonesResult : Except String (List String))
    (workerUserDataResult : Except String String)
    (installerMachineSets : String → String → List String → String → Except String (List MachineSet)) :
    GenResult :=
  if cd.clusterMetadata.isNone then
    { machineSets := none, proceed := false,
      err := some "ClusterDeployment does not have cluster metadata",
      poolNameChosen := none, obtain := none }
  else if cd.platformGCPRegion.isNone then
    { machineSets := none, proceed := false, err := some "ClusterDeployment is not for GCP",
      poolNameChosen := none, obtain := none }
  else if pool.platformGCP.isNone then
    { machineSets := none, proceed := false, err := some "MachinePool is not for GCP",
      poolNameChosen := none, obtain := none }
  else
    match clusterVersionResult with
    | .error e =>
      { machineSets := none, proceed := false,
        err := some ("Unable to get cluster version: " ++ e),
        poolNameChosen := none, obtain := none }
    | .ok _clusterVersion =>
      match listLeasesResult with
      | .error e =>
        { machineSets := none, proceed := false, err := some e,
          poolNameChosen := none, obtain := none }
      | .ok leaseItems =>
        let useLeases : Bool :=
          if leasesRequired then true
          else if leaseItems.length > 0 then true
          else false
        if useLeases then
          let r := obtainLease pool cd leaseItems expectations rand createErr updateErr
          match r.err with
          | some e =>
            { machineSets := none, proceed := false, err := some e,
              poolNameChosen := none, obtain := some r }
          | none =>
            if !r.proceed then
              { machineSets := none, proceed := false, err := none,
                poolNameChosen := none, obtain := some r }
            else
              generateMachineSetsBuild cd pool r.leaseChar (some r)
                imageIDResult zonesResult workerUserDataResult installerMachineSets
        else
          generateMachineSetsBuild cd pool pool.specName none
            imageIDResult zonesResult workerUserDataResult installerMachineSets

/-- A successful pagination path through the zone backend: starting from page
token `tok`, the backend answers each listed page with a non-empty next token,
ending at token `tokEnd` (still to be fetched). Used to state how `getZones`
chains page tokens. -/
inductive ZonePath (fetch : String → Except String ComputeZoneList) :
    String → List ComputeZoneList → String → Prop
  | nil (tok : String) : ZonePath fetch tok [] tok
  | cons (tok : String) (p : ComputeZoneList) (ps : List ComputeZoneList) (tokEnd : String)
      (hfetch : fetch tok = .ok p) (htok : p.nextPageToken ≠ "")
      (hrest : ZonePath fetch p.nextPageToken ps tokEnd) :
      ZonePath fetch tok (p :: ps) tokEnd

/-! ### General helper lemmas -/

lemma getD_mem_of_lt {l : List Char} {i : Nat} {d : Char} (h : i < l.length) :
    l.getD i d ∈ l := by
  rw [List.getD_eq_getElem?_getD, List.getElem?_eq_getElem h]
  exact List.getElem_mem h

/-- Every branch of `obtainLease` is one of: a pre-existing-lease branch (no
creation call), a non-creating no-lease branch (empty character, no creation
call), or a creation branch reached only with no pre-existing lease, with the
character fixed to `w` for a worker pool and drawn from the available set
otherwise. -/
lemma obtainLease_cases (pool : MachinePool) (cd : ClusterDeployment) (leases : List Lease)
    (exps : ExpectState) (rand : Nat) (createErr : Option String) (updateErr : Option String) :
    ((leases.find? (fun l => l.machinePoolNameLabel == pool.name)).isSome ∧
       (obtainLease pool cd leases exps rand createErr updateErr).createCalls = []) ∨
    (leases.find? (fun l => l.machinePoolNameLabel == pool.name) = none ∧
       (obtainLease pool cd leases exps rand createErr updateErr).createCalls = [] ∧
       (obtainLease pool cd leases exps rand createErr updateErr).leaseChar = "" ∧
       (obtainLease pool cd leases exps rand createErr updateErr).proceed = false) ∨
    (leases.find? (fun l => l.machinePoolNameLabel == pool.name) = none ∧
       ∃ leaseRune sw conds,
         obtainLease pool cd leases exps rand createErr updateErr =
           obtainLeaseCreate pool cd exps createErr leaseRune sw conds ∧
         ((pool.specName = "worker" ∧ leaseRune = 'w') ∨
          (pool.specName ≠ "worker" ∧ leaseRune ∈ findAvailableLeaseChars cd leases))) := by
  unfold obtainLease
  split
  next l hfind =>
    left
    rw [hfind]
    refine ⟨rfl, ?_⟩
    dsimp only
    split <;> rfl
  next hfind =>
    rw [hfind]
    split
    next hw =>
      right; right
      exact ⟨rfl, 'w', 0, pool.conditions, rfl, Or.inl ⟨by simpa using hw, rfl⟩⟩
    next hw =>
      have hw2 : pool.specName ≠ "worker" := by simpa using hw
      try dsimp only
      by_cases hav : (findAvailableLeaseChars cd leases).isEmpty = true
      · right; left
        refine ⟨rfl, ?_⟩
        rw [if_pos hav]
        split
        · cases updateErr <;> exact ⟨rfl, rfl, rfl⟩
        · exact ⟨rfl, rfl, rfl⟩
      · have hlen : 0 < (findAvailableLeaseChars cd leases).length := by
          cases h : findAvailableLeaseChars cd leases with
          | nil => rw [h] at hav; simp at hav
          | cons a t => simp [h]
        rw [if_neg hav]
        try dsimp only
        split
        next e w conds heq =>
          right; left
          exact ⟨rfl, rfl, rfl, rfl⟩
        next w conds heq =>
          right; right
          exact ⟨rfl, _, w, conds, rfl, Or.inr ⟨hw2, getD_mem_of_lt (Nat.mod_lt _ hlen)⟩⟩

/-- The creation tail with a failing store create, written out. -/
lemma obtainLeaseCreate_some_eq (pool : MachinePool) (cd : ClusterDeployment)
    (exps : ExpectState) (e : String) (leaseRune : Char) (sw : Nat)
    (conds : List PoolCondition) :
    obtainLeaseCreate pool cd exps (some e) leaseRune sw conds =
      { leaseChar := "", proceed := false, err := some e,
        createCalls := [{ name := cd.infraID ++ "-" ++ String.singleton leaseRune,
                          namespaceName := pool.namespaceName,
                          machinePoolNameLabel := pool.name,
                          clusterDeploymentNameLabel := cd.name }],
        expectations := deleteExpectations
          (expectCreations exps (pool.namespaceName ++ "/" ++ pool.name) 1)
          (pool.namespaceName ++ "/" ++ pool.name),
        statusWrites := sw, conditions := conds } := rfl

/-- The creation tail with a succeeding store create, written out. -/
lemma obtainLeaseCreate_none_eq (pool : MachinePool) (cd : ClusterDeployment)
    (exps : ExpectState) (leaseRune : Char) (sw : Nat) (conds : List PoolCondition) :
    obtainLeaseCreate pool cd exps none leaseRune sw conds =
      { leaseChar := String.singleton leaseRune, proceed := false, err := none,
        createCalls := [{ name := cd.infraID ++ "-" ++ String.singleton leaseRune,
                          namespaceName := pool.namespaceName,
                          machinePoolNameLabel := pool.name,
                          clusterDeploymentNameLabel := cd.name }],
        expectations := expectCreations exps (pool.namespaceName ++ "/" ++ pool.name) 1,
        statusWrites := sw, conditions := conds } := rfl

/-- After `deleteExpectations`, no expectation is recorded for the key. -/
lemma expectedCreations?_delete (s : ExpectState) (key : String) :
    expectedCreations? (deleteExpectations s key) key = none := by
  unfold expectedCreations? deleteExpectations
  induction s with
  | nil => rfl
  | cons p t ih =>
    by_cases h : p.1 == key
    · have : (p.1 != key) = false := by simp [bne]; simpa using h
      simp only [List.filter_cons, this, Bool.false_eq_true, if_false]
      exact ih
    · have hb : (p.1 != key) = true := by simp [bne]; simpa using h
      simp only [List.filter_cons, hb, if_true]
      rw [List.find?_cons_of_neg _ (by simpa using h)]
      exact ih

/-- Every available lease character is in the alphabet. -/
lemma findAvailableLeaseChars_subset {cd : ClusterDeployment} {leases : List Lease} {c : Char}
    (h : c ∈ findAvailableLeaseChars cd leases) : c ∈ validLeaseChars.toList := by
  unfold findAvailableLeaseChars at h
  exact List.mem_of_mem_filter h

/-- The alphabet excludes the reserved characters `m` and `w`. -/
lemma validLeaseChars_no_m_w : ∀ c ∈ validLeaseChars.toList, c ≠ 'm' ∧ c ≠ 'w' := by decide

/-! ### Concrete fixtures for counterexamples and witnesses -/

/-- The original worker pool of cluster deployment `cd1`. -/
def workerPool : MachinePool :=
  { name := "cd1-worker", namespaceName := "ns1", uid := "uid1", specName := "worker",
    platformGCP := some { zones := [], instanceType := "n1-standard-4" }, conditions := [] }

/-- A cluster deployment with infra id `abc123`. -/
def cdAbc : ClusterDeployment :=
  { name := "cd1", clusterMetadata := some "abc123", platformGCPRegion := some "us-east1" }

/-- A non-worker pool (logical name `p1`) of the same cluster deployment. -/
def poolP1 : MachinePool :=
  { name := "cd1-p1", namespaceName := "ns1", uid := "uid2", specName := "p1",
    platformGCP := some { zones := [], instanceType := "n1-standard-4" }, conditions := [] }

/-- A lease for pool `cd1-p1` whose name carries the reserved character `m`. -/
def leaseM : Lease :=
  { name := "abc123-m", namespaceName := "ns1", machinePoolNameLabel := "cd1-p1",
    clusterDeploymentNameLabel := "cd1" }

/-- Leases claiming every one of the 34 alphabet characters for cluster `cd1`,
owned by some other pool. -/
def allClaimLeases : List Lease :=
  validLeaseChars.toList.map (fun c =>
    { name := "abc123-" ++ String.singleton c, namespaceName := "ns1",
      machinePoolNameLabel := "other", clusterDeploymentNameLabel := "cd1" })

/-! ### C1 -/

/-- C1 is false on the code: for infra id `abc123`, pool logical name `worker`
and an empty lease list, `obtainLease` does NOT return `("w", true, nil)` with
no creation call — the worker branch falls through to the creation path. -/
theorem obtainLease_worker_no_lease_not_proceed_counterexample :
    ¬ ((obtainLease workerPool cdAbc [] [] 0 none none).leaseChar = "w" ∧
       (obtainLease workerPool cdAbc [] [] 0 none none).proceed = true ∧
       (obtainLease workerPool cdAbc [] [] 0 none none).err = none ∧
       (obtainLease workerPool cdAbc [] [] 0 none none).createCalls = []) := by
  decide

/-- C1 (amended): for a cluster with infra id `abc123` and a pool whose logical
name is exactly "worker", when the visible lease list is empty and the creation
call succeeds, `obtainLease` returns `("w", false, nil)` and issues exactly one
lease-creation call against the store, for the lease named `abc123-w`. -/
theorem obtainLease_worker_no_lease_creates_w :
    (obtainLease workerPool cdAbc [] [] 0 none none).leaseChar = "w" ∧
    (obtainLease workerPool cdAbc [] [] 0 none none).proceed = false ∧
    (obtainLease workerPool cdAbc [] [] 0 none none).err = none ∧
    (obtainLease workerPool cdAbc [] [] 0 none none).createCalls.map (·.name) = ["abc123-w"] := by
  decide

/-! ### C3 -/

/-- C3 is false on the code: with a pre-existing lease named `abc123-m` labelled
for the (non-worker) pool, `obtainLease` returns the character `m` with nil
error, even though `m` is outside `validLeaseChars` and the pool's logical name
is not "worker" — the pre-existing-lease path never checks the alphabet. -/
theorem obtainLease_returns_m_counterexample :
    (obtainLease poolP1 cdAbc [leaseM] [] 0 none none).err = none ∧
    (obtainLease poolP1 cdAbc [leaseM] [] 0 none none).leaseChar = "m" ∧
    poolP1.specName ≠ "worker" ∧
    ¬ ('m' ∈ validLeaseChars.toList) := by
  decide

/-- C3 (amended): on the no-pre-existing-lease path (no visible lease labelled
with the pool's name), every non-empty character `obtainLease` returns with nil
error is in `validLeaseChars` — hence never `m` or `w` — except that `w` is
returned exactly for a pool whose logical name is "worker". (The
pre-existing-lease path returns the lease name's trailing character without
checking the alphabet, which is what refutes the claim as stated.) -/
theorem obtainLease_fresh_char_in_alphabet
    (pool : MachinePool) (cd : ClusterDeployment) (leases : List Lease)
    (exps : ExpectState) (rand : Nat) (createErr : Option String) (updateErr : Option String)
    (hnolease : leases.find? (fun l => l.machinePoolNameLabel == pool.name) = none)
    (herr : (obtainLease pool cd leases exps rand createErr updateErr).err = none)
    (hchar : (obtainLease pool cd leases exps rand createErr updateErr).leaseChar ≠ "") :
    (pool.specName = "worker" ∧
       (obtainLease pool cd leases exps rand createErr updateErr).leaseChar = "w") ∨
    (pool.specName ≠ "worker" ∧
       ∃ c ∈ validLeaseChars.toList,
         (obtainLease pool cd leases exps rand createErr updateErr).leaseChar =
           String.singleton c ∧ c ≠ 'm' ∧ c ≠ 'w') := by
  rcases obtainLease_cases pool cd leases exps rand createErr updateErr with
    ⟨hs, _⟩ | ⟨_, _, hc, _⟩ | ⟨_, rune, sw, conds, heq, hrune⟩
  · rw [hnolease] at hs; cases hs
  · exact absurd hc hchar
  · cases createErr with
    | some e => rw [heq, obtainLeaseCreate_some_eq] at herr; cases herr
    | none =>
      rw [heq, obtainLeaseCreate_none_eq]
      rcases hrune with ⟨hw, hrw⟩ | ⟨hw, hmem⟩
      · exact Or.inl ⟨hw, by rw [hrw]; rfl⟩
      · have hmem2 := findAvailableLeaseChars_subset hmem
        obtain ⟨hm, hwch⟩ := validLeaseChars_no_m_w rune hmem2
        exact Or.inr ⟨hw, rune, hmem2, rfl, hm, hwch⟩

/-- Witness for the amended C3: the non-worker pool `p1` with no lease and a
successful create draws a character from the alphabet. -/
theorem obtainLease_fresh_char_in_alphabet_witness :
    (poolP1.specName = "worker" ∧
       (obtainLease poolP1 cdAbc [] [] 0 none none).leaseChar = "w") ∨
    (poolP1.specName ≠ "worker" ∧
       ∃ c ∈ validLeaseChars.toList,
         (obtainLease poolP1 cdAbc [] [] 0 none none).leaseChar = String.singleton c ∧
         c ≠ 'm' ∧ c ≠ 'w') :=
  obtainLease_fresh_char_in_alphabet poolP1 cdAbc [] [] 0 none none rfl (by decide) (by decide)

/-! ### C6 -/

/-- C6: whenever the lease-creation call fails, `obtainLease` deletes the
expectation it had just registered for the pool's "namespace/name" identity key
and returns the error: no expectation for that key survives the call. -/
theorem obtainLease_create_failure_clears_expectation
    (pool : MachinePool) (cd : ClusterDeployment) (leases : List Lease)
    (exps : ExpectState) (rand : Nat) (updateErr : Option String) (e : String)
    (hr : (obtainLease pool cd leases exps rand (some e) updateErr).createCalls ≠ []) :
    (obtainLease pool cd leases exps rand (some e) updateErr).err = some e ∧
    (obtainLease pool cd leases exps rand (some e) updateErr).proceed = false ∧
    (obtainLease pool cd leases exps rand (some e) updateErr).leaseChar = "" ∧
    expectedCreations?
      (obtainLease pool cd leases exps rand (some e) updateErr).expectations
      (pool.namespaceName ++ "/" ++ pool.name) = none := by
  rcases obtainLease_cases pool cd leases exps rand (some e) updateErr with
    ⟨_, hc⟩ | ⟨_, hc, _, _⟩ | ⟨_, rune, sw, conds, heq, _⟩
  · exact absurd hc hr
  · exact absurd hc hr
  · rw [heq, obtainLeaseCreate_some_eq]
    exact ⟨rfl, rfl, rfl, expectedCreations?_delete _ _⟩

/-- Witness for C6: an "already exists" failure on the worker pool's creation
leaves no expectation for its key, even one registered beforehand. -/
theorem obtainLease_create_failure_clears_expectation_witness :
    (obtainLease workerPool cdAbc [] [("ns1/cd1-worker", 3)] 0 (some "already exists") none).err
        = some "already exists" ∧
    (obtainLease workerPool cdAbc [] [("ns1/cd1-worker", 3)] 0 (some "already exists") none).proceed
        = false ∧
    (obtainLease workerPool cdAbc [] [("ns1/cd1-worker", 3)] 0
        (some "already exists") none).leaseChar = "" ∧
    expectedCreations?
      (obtainLease workerPool cdAbc [] [("ns1/cd1-worker", 3)] 0
        (some "already exists") none).expectations
      (workerPool.namespaceName ++ "/" ++ workerPool.name) = none :=
  obtainLease_create_failure_clears_expectation workerPool cdAbc [] [("ns1/cd1-worker", 3)] 0 none
    "already exists" (by decide)

/-! ### C4 -/

/-- C4: when the visible lease list contains a lease whose owning-pool label
equals the pool's name (the first such lease is the one the scan uses), a
lease whose identifier is exactly `<infraID>-<trailing char>` yields
`(char, true, nil)` with no creation call and no other effect, and any other
identifier yields the data-integrity error immediately, again with no creation
call. The non-empty-name hypothesis keeps the model on inputs where the Go
code does not panic on `l.Name[len(l.Name)-1:]`. -/
theorem obtainLease_existing_lease
    (pool : MachinePool) (cd : ClusterDeployment) (leases : List Lease)
    (exps : ExpectState) (rand : Nat) (createErr : Option String) (updateErr : Option String)
    (l : Lease)
    (hfind : leases.find? (fun l2 => l2.machinePoolNameLabel == pool.name) = some l)
    (_hname : l.name ≠ "") :
    (l.name = cd.infraID ++ "-" ++ l.name.takeRight 1 →
       obtainLease pool cd leases exps rand createErr updateErr =
         { leaseChar := l.name.takeRight 1, proceed := true, err := none,
           createCalls := [], expectations := exps, statusWrites := 0,
           conditions := pool.conditions }) ∧
    (l.name ≠ cd.infraID ++ "-" ++ l.name.takeRight 1 →
       obtainLease pool cd leases exps rand createErr updateErr =
         { leaseChar := "", proceed := false,
           err := some ("lease " ++ l.name ++ " did not match expected lease name format ("
             ++ (cd.infraID ++ "-" ++ l.name.takeRight 1) ++ "[CHAR])"),
           createCalls := [], expectations := exps, statusWrites := 0,
           conditions := pool.conditions }) := by
  constructor <;> intro h
  · have hb : ((cd.infraID ++ "-" ++ l.name.takeRight 1) != l.name) = false :=
      bne_eq_false_iff_eq.mpr h.symm
    unfold obtainLease
    rw [hfind]
    dsimp only
    rw [hb]
    simp
  · have hb : ((cd.infraID ++ "-" ++ l.name.takeRight 1) != l.name) = true :=
      bne_iff_ne.mpr (Ne.symm h)
    unfold obtainLease
    rw [hfind]
    dsimp only
    rw [hb]
    simp

/-- A well-formed lease for pool `cd1-p1` claiming character `a`. -/
def leaseA : Lease :=
  { name := "abc123-a", namespaceName := "ns1", machinePoolNameLabel := "cd1-p1",
    clusterDeploymentNameLabel := "cd1" }

/-- Witness for C4: the valid pre-existing lease `abc123-a` is returned as-is
with `proceed = true` and no creation call. -/
theorem obtainLease_existing_lease_witness :
    leaseA.name = cdAbc.infraID ++ "-" ++ leaseA.name.takeRight 1 ∧
    obtainLease poolP1 cdAbc [leaseA] [] 0 none none =
      { leaseChar := leaseA.name.takeRight 1, proceed := true, err := none,
        createCalls := [], expectations := [], statusWrites := 0,
        conditions := poolP1.conditions } :=
  ⟨by decide,
   (obtainLease_existing_lease poolP1 cdAbc [leaseA] [] 0 none none leaseA (by decide)
     (by decide)).1 (by decide)⟩

/-! ### C7 -/

/-- C7: for every cluster version that parses and is at or above the supported
threshold (the external range check accepts it), `requireLeases` returns true
iff some machine-set name's middle token (second-to-last dash-separated part,
of names with at least three parts) is exactly "w" and no machine-set name's
middle token is "worker"; otherwise it returns false. -/
theorem requireLeases_at_or_above_threshold
    (v : SemVer) (versionsSupportingFullNames : SemVer → Bool)
    (remoteMachineSets : List MachineSet)
    (hv : versionsSupportingFullNames v = true) :
    requireLeases (some v) versionsSupportingFullNames remoteMachineSets = true ↔
      ((∃ ms ∈ remoteMachineSets, middleNameToken ms.name = some "w") ∧
       ¬ ∃ ms ∈ remoteMachineSets, middleNameToken ms.name = some "worker") := by
  unfold requireLeases
  simp [hv, poolNamesOf, List.contains_iff_exists_mem_beq, List.mem_filterMap,
    Bool.and_eq_true, Bool.not_eq_true']

/-- Witness for C7 at a supported version with a lone `w`-token machine set. -/
theorem requireLeases_at_or_above_threshold_witness :
    requireLeases (some { major := 4, minor := 4, patch := 7 }) (fun _ => true)
        [{ name := "abc123-w-a" }] = true ↔
      ((∃ ms ∈ [({ name := "abc123-w-a" } : MachineSet)], middleNameToken ms.name = some "w") ∧
       ¬ ∃ ms ∈ [({ name := "abc123-w-a" } : MachineSet)],
           middleNameToken ms.name = some "worker") :=
  requireLeases_at_or_above_threshold { major := 4, minor := 4, patch := 7 } (fun _ => true)
    [{ name := "abc123-w-a" }] rfl

/-! ### C8 -/

/-- C8: when exactly one image matches `<infraId>-.*`, image resolution returns
its name with nil error; zero matches and two-or-more matches both return
errors, and the two error messages are distinguishable from each other. -/
theorem getImageID_unique_match
    (cd : ClusterDeployment) (allImages : List GCPImage) :
    (∀ img, listComputeImages allImages cd.infraID = [img] →
       getImageID cd allImages none = .ok img.name) ∧
    (listComputeImages allImages cd.infraID = [] →
       getImageID cd allImages none =
         .error ("found 0 results searching for GCP image starting with name: " ++ cd.infraID)) ∧
    (∀ img1 img2 rest, listComputeImages allImages cd.infraID = img1 :: img2 :: rest →
       getImageID cd allImages none =
         .error ("unexpected number of results when looking for GCP image with name starting with "
           ++ cd.infraID)) ∧
    ("found 0 results searching for GCP image starting with name: " ++ cd.infraID) ≠
      ("unexpected number of results when looking for GCP image with name starting with "
        ++ cd.infraID) := by
  refine ⟨?_, ?_, ?_, ?_⟩
  · intro img h; unfold getImageID; dsimp only; rw [h]
  · intro h; unfold getImageID; dsimp only; rw [h]
  · intro img1 img2 rest h; unfold getImageID; dsimp only; rw [h]
  · intro h
    have h2 := congrArg String.length h
    simp only [String.length_append] at h2
    have h3 : ("found 0 results searching for GCP image starting with name: ").length =
        ("unexpected number of results when looking for GCP image with name starting with ").length :=
      Nat.add_right_cancel h2
    exact absurd h3 (by decide)

/-- Witness for C8: a single matching image `abc123-rhcos` resolves to its name. -/
theorem getImageID_unique_match_witness :
    listComputeImages [{ name := "abc123-rhcos" }] cdAbc.infraID = [{ name := "abc123-rhcos" }] ∧
    getImageID cdAbc [{ name := "abc123-rhcos" }] none = .ok "abc123-rhcos" :=
  ⟨by decide,
   (getImageID_unique_match cdAbc [{ name := "abc123-rhcos" }]).1 { name := "abc123-rhcos" }
     (by decide)⟩

/-! ### C9 -/

/-- The paging loop on a token chain: consuming the chained pages (all
successful, non-empty tokens) and then the terminal fetch, accumulating every
page's items; a failing fetch at the end of the chain produces that error. -/
lemma getZonesAux_path (fetch1 : String → Except String ComputeZoneList) :
    ∀ (ps : List ComputeZoneList) (tok tokEnd : String),
      ZonePath fetch1 tok ps tokEnd →
      ∀ (acc : List String) (fuel : Nat), ps.length + 1 ≤ fuel →
      (∀ plast, fetch1 tokEnd = .ok plast → plast.nextPageToken = "" →
         getZonesAux fetch1 fuel tok acc =
           some (.ok (acc ++ (ps ++ [plast]).flatMap (fun p => p.items)))) ∧
      (∀ e, fetch1 tokEnd = .error e →
         getZonesAux fetch1 fuel tok acc = some (.error e)) := by
  intro ps
  induction ps with
  | nil =>
    intro tok tokEnd hpath acc fuel hfuel
    cases hpath
    obtain ⟨n, rfl⟩ : ∃ n, fuel = n + 1 := ⟨fuel - 1, by omega⟩
    constructor
    · intro plast hf hlast
      unfold getZonesAux
      rw [hf]
      dsimp only
      simp [hlast]
    · intro e hf
      unfold getZonesAux
      rw [hf]
  | cons p ps ih =>
    intro tok tokEnd hpath acc fuel hfuel
    cases hpath with
    | cons _ _ _ _ hfetch htok hrest =>
      obtain ⟨n, rfl⟩ : ∃ n, fuel = n + 1 := ⟨fuel - 1, by omega⟩
      have hn : ps.length + 1 ≤ n := by
        simp only [List.length_cons] at hfuel
        omega
      obtain ⟨ih1, ih2⟩ := ih p.nextPageToken tokEnd hrest (acc ++ p.items) n hn
      have hbne : (p.nextPageToken == "") = false := by
        simpa using htok
      constructor
      · intro plast hf hlast
        unfold getZonesAux
        rw [hfetch]
        dsimp only
        rw [hbne]
        simpa [List.append_assoc] using ih1 plast hf hlast
      · intro e hf
        unfold getZonesAux
        rw [hfetch]
        dsimp only
        rw [hbne]
        simpa using ih2 e hf

/-- C9: zone resolution accumulates the zone names of every page of the
paginated query — each non-empty next-page token is passed through (that is
what a `ZonePath` records) until a page with an empty token, returning all
pages' items in order with nil error; and if the query fails on any page, the
error is returned with no results alongside it. -/
theorem getZones_paginates
    (listComputeZones : String → String → Except String ComputeZoneList) (region : String)
    (ps : List ComputeZoneList) (tokEnd : String)
    (hpath : ZonePath (listComputeZones (zoneFilterFor region)) "" ps tokEnd)
    (fuel : Nat) (hfuel : ps.length + 1 ≤ fuel) :
    (∀ plast, listComputeZones (zoneFilterFor region) tokEnd = .ok plast →
       plast.nextPageToken = "" →
       getZones listComputeZones fuel region =
         some (.ok ((ps ++ [plast]).flatMap (fun p => p.items)))) ∧
    (∀ e, listComputeZones (zoneFilterFor region) tokEnd = .error e →
       getZones listComputeZones fuel region = some (.error e)) := by
  have h := getZonesAux_path (listComputeZones (zoneFilterFor region)) ps "" tokEnd hpath [] fuel
    hfuel
  simpa [getZones] using h

/-- A two-page zone backend: the first page carries token `page2`, the second
ends the pagination. -/
def twoPageFetch : String → String → Except String ComputeZoneList := fun _filter tok =>
  if tok == "" then .ok { items := ["us-east1-b"], nextPageToken := "page2" }
  else if tok == "page2" then .ok { items := ["us-east1-c"], nextPageToken := "" }
  else .error "no such page"

/-- Witness for C9: both pages' zones are accumulated across the pagination. -/
theorem getZones_paginates_witness :
    getZones twoPageFetch 2 "us-east1" = some (.ok ["us-east1-b", "us-east1-c"]) := by
  have h := (getZones_paginates twoPageFetch "us-east1"
      [{ items := ["us-east1-b"], nextPageToken := "page2" }] "page2"
      (ZonePath.cons _ _ _ _ rfl (by decide) (ZonePath.nil _)) 2 (by decide)).1
      { items := ["us-east1-c"], nextPageToken := "" } rfl rfl
  simpa using h

/-! ### C2 -/

/-- C2: whenever `obtainLease` successfully creates a new lease (a creation
call was issued and the error is nil — the no-pre-existing-lease path), it
returns the selected character (the created lease is named
`<infraID>-<returned char>`) with `proceed = false` and nil error, and the
enclosing `GenerateMachineSets` invocation returns `(nil, false, nil)` without
reaching the machine-group assembly. -/
theorem obtainLease_create_success_waits
    (leasesRequired : Bool) (exps : ExpectState) (cd : ClusterDeployment) (pool : MachinePool)
    (infra region : String) (pp : GCPMachinePoolPlatform)
    (hmeta : cd.clusterMetadata = some infra) (hreg : cd.platformGCPRegion = some region)
    (hpp : pool.platformGCP = some pp)
    (cv : String) (leases : List Lease) (rand : Nat) (createErr updateErr : Option String)
    (imgR : Except String String) (zonesR : Except String (List String))
    (udR : Except String String)
    (inst : String → String → List String → String → Except String (List MachineSet))
    (huse : leasesRequired = true ∨ leases ≠ [])
    (hr : (obtainLease pool cd leases exps rand createErr updateErr).createCalls ≠ [])
    (herr : (obtainLease pool cd leases exps rand createErr updateErr).err = none) :
    (obtainLease pool cd leases exps rand createErr updateErr).proceed = false ∧
    (∀ l ∈ (obtainLease pool cd leases exps rand createErr updateErr).createCalls,
       l.name = cd.infraID ++ "-"
         ++ (obtainLease pool cd leases exps rand createErr updateErr).leaseChar) ∧
    GenerateMachineSets leasesRequired exps cd pool (Except.ok cv) (Except.ok leases) rand
        createErr updateErr imgR zonesR udR inst =
      { machineSets := none, proceed := false, err := none, poolNameChosen := none,
        obtain := some (obtainLease pool cd leases exps rand createErr updateErr) } := by
  rcases obtainLease_cases pool cd leases exps rand createErr updateErr with
    ⟨_, hc⟩ | ⟨_, hc, _, _⟩ | ⟨_, rune, sw, conds, heq, _⟩
  · exact absurd hc hr
  · exact absurd hc hr
  · cases createErr with
    | some e => rw [heq, obtainLeaseCreate_some_eq] at herr; cases herr
    | none =>
      have hrec : obtainLease pool cd leases exps rand none updateErr =
          { leaseChar := String.singleton rune, proceed := false, err := none,
            createCalls := [{ name := cd.infraID ++ "-" ++ String.singleton rune,
                              namespaceName := pool.namespaceName,
                              machinePoolNameLabel := pool.name,
                              clusterDeploymentNameLabel := cd.name }],
            expectations := expectCreations exps (pool.namespaceName ++ "/" ++ pool.name) 1,
            statusWrites := sw, conditions := conds } := by
        rw [heq, obtainLeaseCreate_none_eq]
      refine ⟨by rw [hrec], ?_, ?_⟩
      · intro l hl
        rw [hrec] at hl ⊢
        simp only [List.mem_singleton] at hl
        subst hl
        rfl
      · have husebool :
            (if leasesRequired then true else if leases.length > 0 then true else false) = true := by
          rcases huse with h | h
          · simp [h]
          · have hl : 0 < leases.length := List.length_pos.mpr h
            cases leasesRequired <;> simp [hl]
        unfold GenerateMachineSets
        rw [hmeta, hreg, hpp]
        simp only [Option.isNone_some, Bool.false_eq_true, if_false]
        try dsimp only
        rw [husebool]
        simp [hrec]

/-- Witness for C2: the worker pool's successful creation leaves the enclosing
generation waiting for the next pass. -/
theorem obtainLease_create_success_waits_witness :
    (obtainLease workerPool cdAbc [] [] 0 none none).proceed = false ∧
    (∀ l ∈ (obtainLease workerPool cdAbc [] [] 0 none none).createCalls,
       l.name = cdAbc.infraID ++ "-" ++ (obtainLease workerPool cdAbc [] [] 0 none none).leaseChar) ∧
    GenerateMachineSets true [] cdAbc workerPool (Except.ok "4.4.7") (Except.ok []) 0
        none none (Except.ok "abc123-rhcos") (Except.ok ["us-east1-b"]) (Except.ok "worker-user-data")
        (fun _ _ _ _ => Except.ok []) =
      { machineSets := none, proceed := false, err := none, poolNameChosen := none,
        obtain := some (obtainLease workerPool cdAbc [] [] 0 none none) } :=
  obtainLease_create_success_waits true [] cdAbc workerPool "abc123" "us-east1"
    { zones := [], instanceType := "n1-standard-4" } rfl rfl rfl "4.4.7" [] 0 none none
    (Except.ok "abc123-rhcos") (Except.ok ["us-east1-b"]) (Except.ok "worker-user-data")
    (fun _ _ _ _ => Except.ok []) (Or.inl rfl) (by decide) (by decide)

/-! ### C10 -/

/-- The machine-group assembly records exactly the pool name it was handed,
whatever the later image/zone/user-data/installer outcomes. -/
lemma generateMachineSetsBuild_poolNameChosen (cd : ClusterDeployment) (pool : MachinePool)
    (poolName : String) (obt : Option ObtainLeaseResult)
    (imgR : Except String String) (zonesR : Except String (List String))
    (udR : Except String String)
    (inst : String → String → List String → String → Except String (List MachineSet)) :
    (generateMachineSetsBuild cd pool poolName obt imgR zonesR udR inst).poolNameChosen =
      some poolName := by
  unfold generateMachineSetsBuild
  split
  · rfl
  · try dsimp only
    split
    · rfl
    · split
      · rfl
      · split <;> rfl

/-- C10: in `GenerateMachineSets` (with valid records, version and lease
listing), whenever the visible lease list is non-empty the lease path is taken
even when the lease-requirement policy returned false: the pool name fed to the
machine-group assembly is the lease character from `obtainLease` (or the call
stops with no name chosen); the pool's raw configured logical name is used only
when leasing is not required and no lease exists. -/
theorem generateMachineSets_lease_path_naming
    (leasesRequired : Bool) (exps : ExpectState) (cd : ClusterDeployment) (pool : MachinePool)
    (infra region : String) (pp : GCPMachinePoolPlatform)
    (hmeta : cd.clusterMetadata = some infra) (hreg : cd.platformGCPRegion = some region)
    (hpp : pool.platformGCP = some pp)
    (cv : String) (leases : List Lease) (rand : Nat) (createErr updateErr : Option String)
    (imgR : Except String String) (zonesR : Except String (List String))
    (udR : Except String String)
    (inst : String → String → List String → String → Except String (List MachineSet)) :
    ((leasesRequired = true ∨ leases ≠ []) →
       ((GenerateMachineSets leasesRequired exps cd pool (Except.ok cv) (Except.ok leases) rand
           createErr updateErr imgR zonesR udR inst).poolNameChosen = none ∨
        (GenerateMachineSets leasesRequired exps cd pool (Except.ok cv) (Except.ok leases) rand
           createErr updateErr imgR zonesR udR inst).poolNameChosen =
          some (obtainLease pool cd leases exps rand createErr updateErr).leaseChar) ∧
       ((obtainLease pool cd leases exps rand createErr updateErr).err = none →
        (obtainLease pool cd leases exps rand createErr updateErr).proceed = true →
        (GenerateMachineSets leasesRequired exps cd pool (Except.ok cv) (Except.ok leases) rand
           createErr updateErr imgR zonesR udR inst).poolNameChosen =
          some (obtainLease pool cd leases exps rand createErr updateErr).leaseChar)) ∧
    (leasesRequired = false → leases = [] →
       (GenerateMachineSets leasesRequired exps cd pool (Except.ok cv) (Except.ok leases) rand
          createErr updateErr imgR zonesR udR inst).poolNameChosen = some pool.specName) := by
  unfold GenerateMachineSets
  rw [hmeta, hreg, hpp]
  simp only [Option.isNone_some, Bool.false_eq_true, if_false]
  try dsimp only
  constructor
  · intro huse
    have husebool :
        (if leasesRequired then true else if leases.length > 0 then true else false) = true := by
      rcases huse with h | h
      · simp [h]
      · have hl : 0 < leases.length := List.length_pos.mpr h
        cases leasesRequired <;> simp [hl]
    rw [husebool]
    simp only [if_true]
    constructor
    · cases herr : (obtainLease pool cd leases exps rand createErr updateErr).err with
      | some e => left; simp [herr]
      | none =>
        cases hproc : (obtainLease pool cd leases exps rand createErr updateErr).proceed with
        | false => left; simp [herr, hproc]
        | true =>
          right
          simp only [herr, hproc, Bool.not_true, Bool.false_eq_true, if_false]
          exact generateMachineSetsBuild_poolNameChosen _ _ _ _ _ _ _ _
    · intro herr hproc
      simp only [herr, hproc, Bool.not_true, Bool.false_eq_true, if_false]
      exact generateMachineSetsBuild_poolNameChosen _ _ _ _ _ _ _ _
  · intro hlr hle
    subst hlr
    subst hle
    simp only [List.length_nil, if_false]
    try dsimp only
    exact generateMachineSetsBuild_poolNameChosen _ _ _ _ _ _ _ _

/-- Witness for C10: with the policy returning false but a visible lease
`abc123-a`, generation names the pool by the lease character. -/
theorem generateMachineSets_lease_path_naming_witness :
    (GenerateMachineSets false [] cdAbc poolP1 (Except.ok "4.4.7") (Except.ok [leaseA]) 0 none none
       (Except.ok "abc123-rhcos") (Except.ok ["us-east1-b"]) (Except.ok "worker-user-data")
       (fun _ _ _ _ => Except.ok [])).poolNameChosen =
      some (obtainLease poolP1 cdAbc [leaseA] [] 0 none none).leaseChar :=
  ((generateMachineSets_lease_path_naming false [] cdAbc poolP1 "abc123" "us-east1"
      { zones := [], instanceType := "n1-standard-4" } rfl rfl rfl "4.4.7" [leaseA] 0 none none
      (Except.ok "abc123-rhcos") (Except.ok ["us-east1-b"]) (Except.ok "worker-user-data")
      (fun _ _ _ _ => Except.ok [])).1 (Or.inr (by decide))).2 (by decide) (by decide)

/-! ### C5 -/

/-- The predicate compared by the change check is preserved by the in-place
condition update (the update keeps the condition's type). -/
lemma setCond_map_pred (ctype status reason message : String) :
    ((fun c : PoolCondition => c.condType == ctype) ∘
      (fun d : PoolCondition =>
        if d.condType == ctype then { d with status := status, reason := reason, message := message } else d)) =
      (fun d : PoolCondition => d.condType == ctype) := by
  funext d
  dsimp only [Function.comp]
  by_cases h : (d.condType == ctype) = true
  · rw [if_pos h]
  · rw [if_neg h]

/-- Applying the change-checked condition setter to its own output reports no
further change: the second application returns the same list with
`changed = false`. -/
lemma setMachinePoolCondition_idempotent (conds : List PoolCondition)
    (ctype status reason message : String) (check : UpdateConditionCheck) :
    setMachinePoolConditionWithChangeCheck
        (setMachinePoolConditionWithChangeCheck conds ctype status reason message check).1
        ctype status reason message check =
      ((setMachinePoolConditionWithChangeCheck conds ctype status reason message check).1,
        false) := by
  cases hf : conds.find? (fun c => c.condType == ctype) with
  | none =>
    by_cases hs : (status == "True") = true
    · have hres : setMachinePoolConditionWithChangeCheck conds ctype status reason message check =
          (conds ++ [{ condType := ctype, status := status, reason := reason, message := message }],
            true) := by
        unfold setMachinePoolConditionWithChangeCheck
        rw [hf]
        rw [if_pos hs]
      rw [hres]
      unfold setMachinePoolConditionWithChangeCheck
      rw [List.find?_append, hf]
      simp only [Option.none_or, List.find?_singleton, beq_self_eq_true, if_true]
      simp [bne_self_eq_false]
    · have hres : setMachinePoolConditionWithChangeCheck conds ctype status reason message check =
          (conds, false) := by
        unfold setMachinePoolConditionWithChangeCheck
        rw [hf]
        rw [if_neg hs]
      rw [hres]
      unfold setMachinePoolConditionWithChangeCheck
      rw [hf]
      rw [if_neg hs]
  | some c =>
    have hc : (c.condType == ctype) = true := by simpa using List.find?_some hf
    by_cases hnu : ((c.status != status) ||
        (check == UpdateConditionCheck.ifReasonOrMessageChange &&
          ((c.reason != reason) || (c.message != message)))) = true
    · have hres : setMachinePoolConditionWithChangeCheck conds ctype status reason message check =
          (conds.map (fun d =>
            if d.condType == ctype then
              { d with status := status, reason := reason, message := message }
            else d), true) := by
        unfold setMachinePoolConditionWithChangeCheck
        rw [hf]
        dsimp only
        rw [if_pos hnu]
      rw [hres]
      unfold setMachinePoolConditionWithChangeCheck
      rw [List.find?_map, setCond_map_pred, hf]
      simp only [Option.map_some']
      rw [if_pos hc]
      simp [bne_self_eq_false]
    · have hres : setMachinePoolConditionWithChangeCheck conds ctype status reason message check =
          (conds, false) := by
        unfold setMachinePoolConditionWithChangeCheck
        rw [hf]
        dsimp only
        rw [if_neg hnu]
      rw [hres]
      unfold setMachinePoolConditionWithChangeCheck
      rw [hf]
      dsimp only
      rw [if_neg hnu]

/-- The exhaustion-condition update issued by `obtainLease` when no character
is free. -/
def exhaustedCondStep (conds : List PoolCondition) : List PoolCondition × Bool :=
  setMachinePoolConditionWithChangeCheck conds "NoMachinePoolNameLeasesAvailable" "True"
    "OutOfMachinePoolNames" "All machine pool names are in use"
    UpdateConditionCheck.ifReasonOrMessageChange

/-- On the exhausted path (no pre-existing lease, non-worker pool, empty
available set, status update succeeding), `obtainLease` returns the non-error
wait state and writes the condition exactly when the change check reports a
change. -/
lemma obtainLease_exhausted_eq (pool : MachinePool) (cd : ClusterDeployment)
    (leases : List Lease) (exps : ExpectState) (rand : Nat) (createErr : Option String)
    (hnolease : leases.find? (fun l => l.machinePoolNameLabel == pool.name) = none)
    (hnw : pool.specName ≠ "worker")
    (havail : findAvailableLeaseChars cd leases = []) :
    ∀ conds : List PoolCondition,
      obtainLease { pool with conditions := conds } cd leases exps rand createErr none =
        (if (exhaustedCondStep conds).2 then
           { leaseChar := "", proceed := false, err := none, createCalls := [],
             expectations := exps, statusWrites := 1, conditions := (exhaustedCondStep conds).1 }
         else
           { leaseChar := "", proceed := false, err := none, createCalls := [],
             expectations := exps, statusWrites := 0, conditions := conds }) := by
  intro conds
  unfold obtainLease
  dsimp only
  rw [hnolease]
  have hw : (pool.specName == "worker") = false := by simpa using hnw
  rw [hw]
  simp only [Bool.false_eq_true, if_false]
  rw [havail]
  simp only [List.isEmpty_nil, if_true]
  unfold exhaustedCondStep
  split
  · rfl
  · rfl

/-- C5: for a non-worker pool with no existing lease and an empty
available-character set, `obtainLease` returns `("", false, nil)` — not an
error — with no creation call, issues at most one status write, issues none at
all when the exhaustion condition already carries the exact value/reason/
message, and a repeated call with the resulting conditions (state otherwise
unchanged) issues no status write and returns the same outcome. -/
theorem obtainLease_exhausted_sets_condition_once
    (pool : MachinePool) (cd : ClusterDeployment) (leases : List Lease)
    (exps : ExpectState) (rand : Nat) (createErr : Option String)
    (hnolease : leases.find? (fun l => l.machinePoolNameLabel == pool.name) = none)
    (hnw : pool.specName ≠ "worker")
    (havail : findAvailableLeaseChars cd leases = []) :
    (obtainLease pool cd leases exps rand createErr none).leaseChar = "" ∧
    (obtainLease pool cd leases exps rand createErr none).proceed = false ∧
    (obtainLease pool cd leases exps rand createErr none).err = none ∧
    (obtainLease pool cd leases exps rand createErr none).createCalls = [] ∧
    (obtainLease pool cd leases exps rand createErr none).statusWrites ≤ 1 ∧
    (pool.conditions.find? (fun c => c.condType == "NoMachinePoolNameLeasesAvailable") =
        some { condType := "NoMachinePoolNameLeasesAvailable", status := "True",
               reason := "OutOfMachinePoolNames", message := "All machine pool names are in use" } →
      (obtainLease pool cd leases exps rand createErr none).statusWrites = 0) ∧
    obtainLease
        { pool with conditions := (obtainLease pool cd leases exps rand createErr none).conditions }
        cd leases exps rand createErr none =
      { obtainLease pool cd leases exps rand createErr none with statusWrites := 0 } := by
  have h := obtainLease_exhausted_eq pool cd leases exps rand createErr hnolease hnw havail
  have hpool : obtainLease pool cd leases exps rand createErr none =
      (if (exhaustedCondStep pool.conditions).2 then
         { leaseChar := "", proceed := false, err := none, createCalls := [],
           expectations := exps, statusWrites := 1,
           conditions := (exhaustedCondStep pool.conditions).1 }
       else
         { leaseChar := "", proceed := false, err := none, createCalls := [],
           expectations := exps, statusWrites := 0, conditions := pool.conditions }) :=
    h pool.conditions
  by_cases hres : (exhaustedCondStep pool.conditions).2 = true
  · rw [if_pos hres] at hpool
    refine ⟨by rw [hpool], by rw [hpool], by rw [hpool], by rw [hpool], by rw [hpool], ?_, ?_⟩
    · intro hfind
      have hfalse : (exhaustedCondStep pool.conditions).2 = false := by
        unfold exhaustedCondStep setMachinePoolConditionWithChangeCheck
        rw [hfind]
        simp [bne_self_eq_false]
      rw [hfalse] at hres
      cases hres
    · have h2 := h (exhaustedCondStep pool.conditions).1
      have hidem : exhaustedCondStep (exhaustedCondStep pool.conditions).1 =
          ((exhaustedCondStep pool.conditions).1, false) := by
        unfold exhaustedCondStep
        exact setMachinePoolCondition_idempotent pool.conditions _ _ _ _ _
      rw [hidem] at h2
      simp only [Bool.false_eq_true, if_false] at h2
      rw [hpool]
      dsimp only
      exact h2
  · rw [if_neg hres] at hpool
    refine ⟨by rw [hpool], by rw [hpool], by rw [hpool], by rw [hpool],
      by rw [hpool]; exact Nat.zero_le 1, ?_, ?_⟩
    · intro _hfind
      rw [hpool]
    · have h2 := h pool.conditions
      rw [if_neg hres] at h2
      rw [hpool]
      dsimp only
      exact h2

/-- Witness for C5: with all 34 characters claimed by other pools' leases,
pool `p1` gets the non-error wait state, one condition write, and a repeated
call writes nothing. -/
theorem obtainLease_exhausted_sets_condition_once_witness :
    (obtainLease poolP1 cdAbc allClaimLeases [] 0 none none).leaseChar = "" ∧
    (obtainLease poolP1 cdAbc allClaimLeases [] 0 none none).proceed = false ∧
    (obtainLease poolP1 cdAbc allClaimLeases [] 0 none none).err = none ∧
    (obtainLease poolP1 cdAbc allClaimLeases [] 0 none none).createCalls = [] ∧
    (obtainLease poolP1 cdAbc allClaimLeases [] 0 none none).statusWrites ≤ 1 ∧
    (poolP1.conditions.find? (fun c => c.condType == "NoMachinePoolNameLeasesAvailable") =
        some { condType := "NoMachinePoolNameLeasesAvailable", status := "True",
               reason := "OutOfMachinePoolNames", message := "All machine pool names are in use" } →
      (obtainLease poolP1 cdAbc allClaimLeases [] 0 none none).statusWrites = 0) ∧
    obtainLease
        { poolP1 with conditions := (obtainLease poolP1 cdAbc allClaimLeases [] 0 none none).conditions }
        cdAbc allClaimLeases [] 0 none none =
      { obtainLease poolP1 cdAbc allClaimLeases [] 0 none none with statusWrites := 0 } :=
  obtainLease_exhausted_sets_condition_once poolP1 cdAbc allClaimLeases [] 0 none
    (by decide) (by decide) (by decide)

end Hive
